import Mathlib

/-!
Verification of the durable delayed-action scheduler of the funnel bot
(`bot_test.py`): the `scheduled_messages` table, `schedule_message`,
`mark_message_delivered`, `purge_user`, `is_fast_user`, the delay policy,
`process_scheduled_message` and the polling query of `scheduler_worker`.

Modelling conventions:
* Timestamps are seconds as `Nat`.  The source stores ISO-8601 strings with
  seconds precision and compares them with SQL string comparison; for such
  strings the lexicographic order coincides with chronological order, so
  `Nat` with `≤` is a faithful model.
* The `scheduled_messages` table is a list of rows together with the next
  AUTOINCREMENT id.
* Environment values (`MODE`, `FAST_USER_ID`) are modelled as their character
  sequences, so that Python's `str.isdigit` / `str.lower` / `int` are modelled
  character by character.  The Unicode digit classes behind `isdigit` and
  `int` are modelled by representative blocks (ASCII and Arabic-Indic decimal
  digits, superscript non-decimal digits), exact on ASCII; theorems that
  quantify over arbitrary configuration values restrict to ASCII, where the
  model coincides with Python.
* The funnel handlers invoked by `process_scheduled_message`
  (`send_channel_invite`, ...) are external collaborators; they are abstracted
  by a function telling, per `(user_id, kind, payload)`, whether the handler
  raises.  An unknown `kind` only logs, so it never raises.
-/

namespace CalmwayBot

/-- A row of the `scheduled_messages` table. -/
structure ScheduledAction where
  id : Nat
  user_id : Nat
  send_at : Nat
  kind : String
  payload : Option String
  delivered : Bool
deriving DecidableEq, Repr

/-- The `scheduled_messages` table: its rows and the next AUTOINCREMENT id. -/
structure Store where
  rows : List ScheduledAction
  nextId : Nat
deriving DecidableEq, Repr

/-- The empty table created by `init_db`. -/
def emptyStore : Store := { rows := [], nextId := 1 }

/-- Environment configuration read at module load:
the raw values of the `MODE` and `FAST_USER_ID` variables. -/
structure Config where
  modeRaw : List Char
  fastUserIdRaw : List Char
deriving DecidableEq, Repr

/-- Python `str.lower` on an ASCII character. -/
def lowerChar (c : Char) : Char :=
  if c.isUpper then Char.ofNat (c.toNat + 32) else c

/-- `MODE = os.getenv("MODE", "prod").lower()`. -/
def MODE (cfg : Config) : List Char := cfg.modeRaw.map lowerChar

/-- The characters of the string `"test"` compared against `MODE`. -/
def testStr : List Char := ['t', 'e', 's', 't']

/-- The decimal value of a character as Python `int` reads it: Unicode
decimal digits (category `Nd`) carry their value.  Modelled for the ASCII
digits `0-9` and, as a representative non-ASCII `Nd` block, the Arabic-Indic
digits `٠-٩` (U+0660-U+0669); every other `Nd` block behaves like these.  On
ASCII characters this is exact. -/
def charDecimal? (c : Char) : Option Nat :=
  if '0' ≤ c ∧ c ≤ '9' then some (c.toNat - '0'.toNat)
  else if '٠' ≤ c ∧ c ≤ '٩' then some (c.toNat - '٠'.toNat)
  else none

/-- Python `str.isdigit` on one character: true for decimal digits (`Nd`) and
also for non-decimal characters with `Numeric_Type=Digit`, modelled by the
superscript digits `⁰¹²³⁴-⁹` (U+2070, U+00B9, U+00B2, U+00B3,
U+2074-U+2079); every other such character behaves like these.  On ASCII
characters this is exact. -/
def char_isdigit (c : Char) : Bool :=
  (charDecimal? c).isSome || c == '⁰' || c == '¹' || c == '²' || c == '³' ||
    (decide ('⁴' ≤ c) && decide (c ≤ '⁹'))

/-- Python `str.isdigit`: nonempty and every character a digit. -/
def str_isdigit (cs : List Char) : Bool := !cs.isEmpty && cs.all char_isdigit

/-- Python `int` on a string already known digit-only: succeeds iff every
character is a decimal digit (`Nd`), yielding the base-10 value; `none`
models the `ValueError` on digit characters that are not decimal. -/
def int_value (cs : List Char) : Option Nat :=
  if !cs.isEmpty && cs.all (fun c => (charDecimal? c).isSome) then
    some (cs.foldl (fun n c => 10 * n + (charDecimal? c).getD 0) 0)
  else none

/-- The import-time statement
`FAST_USER_ID = int(FAST_USER_ID_RAW) if FAST_USER_ID_RAW.isdigit() else None`
(bot_test.py line 31): `Except.error` models an uncaught `ValueError` from
`int`, which kills the process before it starts. -/
def FAST_USER_ID_init (raw : List Char) : Except Unit (Option Nat) :=
  if str_isdigit raw then
    match int_value raw with
    | some n => Except.ok (some n)
    | none => Except.error ()
  else Except.ok none

instance : DecidableEq (Except Unit (Option Nat)) := fun x y =>
  match x, y with
  | Except.ok a, Except.ok b =>
    if h : a = b then isTrue (h ▸ rfl) else isFalse (fun hc => h (Except.ok.inj hc))
  | Except.ok _, Except.error _ => isFalse (fun hc => Except.noConfusion hc)
  | Except.error _, Except.ok _ => isFalse (fun hc => Except.noConfusion hc)
  | Except.error a, Except.error b => isTrue (by cases a; cases b; rfl)

/-- The module constant `FAST_USER_ID` of a running program.  Meaningful only
for configurations whose import succeeds; `FAST_USER_ID_init` is the
authoritative import-time semantics, and on an import error (when no program
runs) this projection conventionally returns `none`. -/
def FAST_USER_ID (cfg : Config) : Option Nat :=
  match FAST_USER_ID_init cfg.fastUserIdRaw with
  | Except.ok v => v
  | Except.error _ => none

/-- `is_fast_user` (bot_test.py lines 164-167): `True` in global test mode,
otherwise `FAST_USER_ID is not None and user_id == FAST_USER_ID`. -/
def is_fast_user (cfg : Config) (user_id : Nat) : Bool :=
  if MODE cfg = testStr then true
  else
    match FAST_USER_ID cfg with
    | none => false
    | some fid => user_id == fid

/-- The delay selection `test_seconds if is_fast_user(user_id) else prod_seconds`
repeated at every scheduling call site (bot_test.py lines 170 and 182); the
spec's Time Policy `resolve_delay`. -/
def resolve_delay (cfg : Config) (user_id : Nat)
    (prod_seconds : Nat) (test_seconds : Nat) : Nat :=
  if is_fast_user cfg user_id then test_seconds else prod_seconds

/-- Does a row match `user_id=? AND kind=? AND delivered=0`? -/
def matchesUndelivered (user_id : Nat) (kind : String) (a : ScheduledAction) : Bool :=
  a.user_id == user_id && a.kind == kind && !a.delivered

/-- `schedule_message` (bot_test.py lines 175-201): compute
`send_at = now + delay`, `DELETE FROM scheduled_messages WHERE user_id=? AND
kind=? AND delivered=0`, then `INSERT` the new undelivered row. -/
def schedule_message (cfg : Config) (now : Nat) (st : Store)
    (user_id : Nat) (prod_seconds : Nat) (kind : String)
    (payload : Option String) (test_seconds : Nat) : Store :=
  let delay := if is_fast_user cfg user_id then test_seconds else prod_seconds
  let send_at := now + delay
  { rows :=
      st.rows.filter (fun a => !matchesUndelivered user_id kind a) ++
        [{ id := st.nextId, user_id := user_id, send_at := send_at,
           kind := kind, payload := payload, delivered := false }],
    nextId := st.nextId + 1 }

/-- `mark_message_delivered` (bot_test.py lines 204-209):
`UPDATE scheduled_messages SET delivered=1 WHERE id=?`. -/
def mark_message_delivered (st : Store) (task_id : Nat) : Store :=
  { st with
    rows := st.rows.map (fun a =>
      if a.id == task_id then { a with delivered := true } else a) }

/-- The `scheduled_messages` part of `purge_user` (bot_test.py lines 153-161):
`DELETE FROM scheduled_messages WHERE user_id=?`.  (The source function also
clears the `events`, `answers` and `users` tables, which are outside the
scheduler's data model.) -/
def purge_user (st : Store) (user_id : Nat) : Store :=
  { st with rows := st.rows.filter (fun a => !(a.user_id == user_id)) }

/-- Modelled from the spec: the repository has no `cancel(user_id, kind)`
function under `src/` (only the spec's Task Store and Scheduler API contracts
describe it).  Per the spec it "deletes undelivered action(s) matching
`(user_id, kind)`; no-op if none exist". -/
def cancel (st : Store) (user_id : Nat) (kind : String) : Store :=
  { st with rows := st.rows.filter (fun a => !matchesUndelivered user_id kind a) }

/-- Is a row due and undelivered at `now`: `delivered=0 AND send_at <= ?`. -/
def isDue (now : Nat) (a : ScheduledAction) : Bool :=
  !a.delivered && decide (a.send_at ≤ now)

/-- The order `ORDER BY send_at ASC` sorts by. -/
def dueLe (x y : ScheduledAction) : Prop := x.send_at ≤ y.send_at

instance : DecidableRel dueLe := fun x y => Nat.decLe x.send_at y.send_at

instance : IsTotal ScheduledAction dueLe := ⟨fun x y => Nat.le_total x.send_at y.send_at⟩

instance : IsTrans ScheduledAction dueLe := ⟨fun _ _ _ h h2 => Nat.le_trans h h2⟩

/-- The due-actions query of `scheduler_worker` (bot_test.py lines 250-259):
`SELECT ... WHERE delivered=0 AND send_at <= ? ORDER BY send_at ASC LIMIT ?`. -/
def due_actions (st : Store) (now : Nat) (limit : Nat) : List ScheduledAction :=
  (List.insertionSort dueLe (st.rows.filter (isDue now))).take limit

/-- The `LIMIT 50` of the query in `scheduler_worker`. -/
def BATCH_LIMIT : Nat := 50

/-- Abstraction of the funnel handlers dispatched on `kind` by
`process_scheduled_message`: given `(user_id, kind, payload)`, does the
handler raise an exception? -/
def Handler : Type := Nat → String → Option String → Bool

/-- A handler invocation performed by the dispatch loop, with the arguments
`process_scheduled_message` receives. -/
structure Call where
  task_id : Nat
  user_id : Nat
  kind : String
  payload : Option String
deriving DecidableEq, Repr

/-- `process_scheduled_message` (bot_test.py lines 212-240): `try` the handler
dispatch on `kind`, and in a `finally` block `mark_message_delivered(task_id)`.
There is no `except`: the returned `Bool` is `true` when the handler raised,
in which case the exception propagates to the caller after the `finally`. -/
def process_scheduled_message (raises : Handler) (st : Store)
    (task_id : Nat) (user_id : Nat) (kind : String) (payload : Option String) :
    Store × Bool :=
  (mark_message_delivered st task_id, raises user_id kind payload)

/-- The `for` loop of `scheduler_worker` over a fetched batch: each row is
passed to `process_scheduled_message`; an exception propagating from it breaks
out of the loop (it is caught by the worker-level `except`).  Returns the
resulting store and the handler invocations made, in order. -/
def runBatch (raises : Handler) : List ScheduledAction → Store → Store × List Call
  | [], st => (st, [])
  | a :: rest, st =>
    let r := process_scheduled_message raises st a.id a.user_id a.kind a.payload
    if r.2 then (r.1, [⟨a.id, a.user_id, a.kind, a.payload⟩])
    else
      let r2 := runBatch raises rest r.1
      (r2.1, ⟨a.id, a.user_id, a.kind, a.payload⟩ :: r2.2)

/-- One poll of `scheduler_worker` (bot_test.py lines 243-273): fetch the due
batch and run it.  The worker-level `except Exception` catches anything that
escapes the `for` loop, logs it and sleeps until the next poll, so the loop
itself never crashes. -/
def pollOnce (raises : Handler) (st : Store) (now : Nat) : Store × List Call :=
  runBatch raises (due_actions st now BATCH_LIMIT) st

/-- Number of undelivered rows for a `(user_id, kind)` pair. -/
def undelivered_count (st : Store) (user_id : Nat) (kind : String) : Nat :=
  st.rows.countP (matchesUndelivered user_id kind)

/-- The store operations reachable from funnel handlers and admin flows. -/
inductive Op where
  | schedule (now : Nat) (user_id : Nat) (prod_seconds : Nat) (kind : String)
      (payload : Option String) (test_seconds : Nat)
  | cancelOp (user_id : Nat) (kind : String)
  | markDelivered (task_id : Nat)
  | purge (user_id : Nat)

/-- Apply one store operation. -/
def applyOp (cfg : Config) (st : Store) : Op → Store
  | .schedule now u prod k payload tst => schedule_message cfg now st u prod k payload tst
  | .cancelOp u k => cancel st u k
  | .markDelivered i => mark_message_delivered st i
  | .purge u => purge_user st u

/-- Run a sequence of store operations from a starting store. -/
def runOps (cfg : Config) (st : Store) (ops : List Op) : Store :=
  ops.foldl (applyOp cfg) st


/-! ### Counting lemmas for the supersede invariant -/

/-- Deleting exactly the rows matching `p` leaves no row matching `p`. -/
theorem countP_filter_not {α : Type} (p : α → Bool) (l : List α) :
    (l.filter (fun a => !p a)).countP p = 0 := by
  rw [List.countP_eq_zero]
  intro a ha
  have h := (List.mem_filter.mp ha).2
  simp only [Bool.not_eq_eq_eq_not, Bool.not_true] at h
  simp [h]

/-- A pointwise update that never turns a non-matching row into a matching one
cannot increase the number of matching rows. -/
theorem countP_map_le {α : Type} (g : α → α) (p : α → Bool)
    (h : ∀ x, p (g x) = true → p x = true) :
    ∀ l : List α, (l.map g).countP p ≤ l.countP p := by
  intro l
  induction l with
  | nil => simp
  | cons x xs ih =>
    simp only [List.map_cons]
    by_cases hx : p (g x) = true
    · rw [List.countP_cons_of_pos _ _ hx, List.countP_cons_of_pos _ _ (h x hx)]
      omega
    · rw [List.countP_cons_of_neg _ _ hx]
      by_cases hx2 : p x = true
      · rw [List.countP_cons_of_pos _ _ hx2]
        omega
      · rw [List.countP_cons_of_neg _ _ hx2]
        exact ih

/-- `schedule_message` preserves "at most one undelivered row per
`(user_id, kind)`": it deletes every undelivered row of the scheduled pair and
inserts a single fresh one, and the fresh row does not match any other pair. -/
theorem undelivered_count_schedule_le (cfg : Config) (now : Nat) (st : Store)
    (u0 : Nat) (prod : Nat) (k0 : String) (payload : Option String) (tst : Nat)
    (u : Nat) (k : String) (h : undelivered_count st u k ≤ 1) :
    undelivered_count (schedule_message cfg now st u0 prod k0 payload tst) u k ≤ 1 := by
  unfold undelivered_count schedule_message
  rw [List.countP_append]
  by_cases hp : u0 = u ∧ k0 = k
  · obtain ⟨rfl, rfl⟩ := hp
    rw [countP_filter_not]
    simp [List.countP_cons, matchesUndelivered]
  · have h1 : (st.rows.filter (fun a => !matchesUndelivered u0 k0 a)).countP
        (matchesUndelivered u k) ≤ st.rows.countP (matchesUndelivered u k) :=
      (List.filter_sublist _).countP_le _
    have h2 : matchesUndelivered u k
        { id := st.nextId, user_id := u0, send_at := now + (if is_fast_user cfg u0 then tst else prod),
          kind := k0, payload := payload, delivered := false } = false := by
      simp only [matchesUndelivered, Bool.not_false, Bool.and_true]
      rcases not_and_or.mp hp with hu | hk
      · simp [beq_eq_false_iff_ne, hu]
      · simp [beq_eq_false_iff_ne, hk]
    rw [List.countP_cons_of_neg _ _ (by simp [h2]), List.countP_nil]
    unfold undelivered_count at h
    omega

/-- `mark_message_delivered` never increases the number of undelivered rows of
any `(user_id, kind)`. -/
theorem undelivered_count_mark_le (st : Store) (i : Nat) (u : Nat) (k : String) :
    undelivered_count (mark_message_delivered st i) u k ≤ undelivered_count st u k := by
  unfold undelivered_count mark_message_delivered
  refine countP_map_le _ _ ?_ st.rows
  intro x hx
  by_cases hid : (x.id == i) = true
  · simp [matchesUndelivered, hid] at hx
  · simpa [hid] using hx

/-- `cancel` never increases the number of undelivered rows. -/
theorem undelivered_count_cancel_le (st : Store) (u0 : Nat) (k0 : String)
    (u : Nat) (k : String) :
    undelivered_count (cancel st u0 k0) u k ≤ undelivered_count st u k :=
  (List.filter_sublist _).countP_le _

/-- `purge_user` never increases the number of undelivered rows. -/
theorem undelivered_count_purge_le (st : Store) (u0 : Nat) (u : Nat) (k : String) :
    undelivered_count (purge_user st u0) u k ≤ undelivered_count st u k :=
  (List.filter_sublist _).countP_le _

/-- Every store operation preserves the supersede invariant. -/
theorem applyOp_preserves_invariant (cfg : Config) (st : Store) (op : Op)
    (h : ∀ u k, undelivered_count st u k ≤ 1) :
    ∀ u k, undelivered_count (applyOp cfg st op) u k ≤ 1 := by
  intro u k
  cases op with
  | schedule now u0 prod k0 payload tst =>
    exact undelivered_count_schedule_le cfg now st u0 prod k0 payload tst u k (h u k)
  | cancelOp u0 k0 => exact le_trans (undelivered_count_cancel_le st u0 k0 u k) (h u k)
  | markDelivered i => exact le_trans (undelivered_count_mark_le st i u k) (h u k)
  | purge u0 => exact le_trans (undelivered_count_purge_le st u0 u k) (h u k)

/-- The supersede invariant is preserved along any operation sequence. -/
theorem runOps_preserves_invariant (cfg : Config) :
    ∀ (ops : List Op) (st : Store), (∀ u k, undelivered_count st u k ≤ 1) →
      ∀ u k, undelivered_count (runOps cfg st ops) u k ≤ 1 := by
  intro ops
  induction ops with
  | nil => intro st h; exact h
  | cons op ops ih =>
    intro st h
    exact ih (applyOp cfg st op) (applyOp_preserves_invariant cfg st op h)

/-- C1: for every `(user_id, kind)`, after any sequence of store operations
(`schedule_message`, `cancel`, `mark_message_delivered`, `purge_user`) starting
from the empty `scheduled_messages` table, at most one undelivered action with
that `(user_id, kind)` exists in the store: `schedule_message` deletes any
existing undelivered action of the same pair before inserting the new one, and
the other operations only remove or deliver rows. -/
theorem C1_supersede_invariant (cfg : Config) (ops : List Op) (u : Nat) (k : String) :
    undelivered_count (runOps cfg emptyStore ops) u k ≤ 1 := by
  refine runOps_preserves_invariant cfg ops emptyStore ?_ u k
  intro u k
  simp [undelivered_count, emptyStore]


/-! ### The due-actions query -/

/-- Soundness of membership in the due-actions query result. -/
theorem mem_due_actions {st : Store} {now limit : Nat} {a : ScheduledAction}
    (ha : a ∈ due_actions st now limit) :
    a ∈ st.rows ∧ a.delivered = false ∧ a.send_at ≤ now := by
  unfold due_actions at ha
  have h1 := List.take_subset _ _ ha
  have h2 := (List.perm_insertionSort dueLe _).mem_iff.mp h1
  obtain ⟨hmem, hdue⟩ := List.mem_filter.mp h2
  unfold isDue at hdue
  rw [Bool.and_eq_true] at hdue
  refine ⟨hmem, ?_, ?_⟩
  · simpa using hdue.1
  · simpa using hdue.2

/-- Completeness of the due-actions query when the due rows fit the limit. -/
theorem mem_due_actions_of_le {st : Store} {now limit : Nat}
    (hlen : (st.rows.filter (isDue now)).length ≤ limit) {b : ScheduledAction}
    (hb : b ∈ st.rows) (hd : b.delivered = false) (hs : b.send_at ≤ now) :
    b ∈ due_actions st now limit := by
  unfold due_actions
  have hmem : b ∈ st.rows.filter (isDue now) :=
    List.mem_filter.mpr ⟨hb, by simp [isDue, hd, hs]⟩
  have hmem2 : b ∈ List.insertionSort dueLe (st.rows.filter (isDue now)) :=
    (List.perm_insertionSort dueLe _).mem_iff.mpr hmem
  have hlen2 : (List.insertionSort dueLe (st.rows.filter (isDue now))).length ≤ limit := by
    rw [(List.perm_insertionSort dueLe _).length_eq]
    exact hlen
  rwa [List.take_of_length_le hlen2]

/-- C3: the due-actions query used by each poll of the dispatch loop returns
only rows that are undelivered and have `send_at ≤ now`, in ascending `send_at`
order, and returns at most 50 rows (the `LIMIT 50` of the query). -/
theorem C3_due_query_correct (st : Store) (now : Nat) :
    (∀ a ∈ due_actions st now BATCH_LIMIT, a.delivered = false ∧ a.send_at ≤ now) ∧
    List.Sorted dueLe (due_actions st now BATCH_LIMIT) ∧
    (due_actions st now BATCH_LIMIT).length ≤ 50 := by
  refine ⟨?_, ?_, ?_⟩
  · intro a ha
    exact (mem_due_actions ha).2
  · exact List.Pairwise.sublist (List.take_sublist _ _) (List.sorted_insertionSort dueLe _)
  · unfold due_actions BATCH_LIMIT
    rw [List.length_take]
    exact Nat.min_le_left _ _

/-! ### The time policy -/

/-- `is_fast_user` succeeds exactly in global test mode or when the user id
equals the configured fast-track id. -/
theorem is_fast_user_iff (cfg : Config) (u : Nat) :
    is_fast_user cfg u = true ↔ MODE cfg = testStr ∨ FAST_USER_ID cfg = some u := by
  unfold is_fast_user
  by_cases h : MODE cfg = testStr
  · simp [h]
  · cases hf : FAST_USER_ID cfg with
    | none => simp [h, hf]
    | some fid =>
      simp only [h, if_false, hf, beq_iff_eq, false_or, Option.some.injEq]
      exact eq_comm

/-- C5: `resolve_delay` (the time policy shared by every scheduling call site)
returns the fast delay exactly when the global mode is `test` or the user id
equals the configured fast-track id, and the normal delay otherwise, for every
pair of delay values; as a Lean function of the configuration and arguments it
is pure by construction. -/
theorem C5_resolve_delay_policy (cfg : Config) (u : Nat) (normal fast : Nat) :
    ((MODE cfg = testStr ∨ FAST_USER_ID cfg = some u) →
      resolve_delay cfg u normal fast = fast) ∧
    (¬(MODE cfg = testStr ∨ FAST_USER_ID cfg = some u) →
      resolve_delay cfg u normal fast = normal) := by
  constructor
  · intro h
    unfold resolve_delay
    rw [(is_fast_user_iff cfg u).mpr h]
    rfl
  · intro h
    have hf : is_fast_user cfg u = false := by
      rw [← Bool.not_eq_true]
      intro hc
      exact h ((is_fast_user_iff cfg u).mp hc)
    unfold resolve_delay
    rw [hf]
    rfl

/-- Witness for C5: in global test mode the fast delay is selected. -/
theorem C5_resolve_delay_policy_witness :
    resolve_delay ⟨['t', 'e', 's', 't'], []⟩ 7 3600 5 = 5 :=
  (C5_resolve_delay_policy ⟨['t', 'e', 's', 't'], []⟩ 7 3600 5).1 (Or.inl (by decide))

/-- C10 counterexample: the `isdigit` guard of the parse is Unicode-wide, so
a misconfigured value does not always parse to `none` without error:
`FAST_USER_ID="²"` (a digit character that is not decimal) passes the guard
and makes `int` raise `ValueError` at import, and `FAST_USER_ID="٣"`
(Arabic-Indic three, not an ASCII decimal-digit string) parses to the id `3`
and enables fast-tracking for user 3 outside test mode. -/
theorem C10_counterexample_unicode_digits :
    FAST_USER_ID_init ['²'] = Except.error () ∧
    FAST_USER_ID_init ['٣'] = Except.ok (some 3) ∧
    is_fast_user ⟨['p', 'r', 'o', 'd'], ['٣']⟩ 3 = true := by
  decide

/-- C10 (amended): if the `FAST_USER_ID` environment value is absent, or is an
ASCII string that is not entirely decimal digits (e.g. empty, negative or
malformed), the import-time parse yields `None` without error, and then
outside global test mode `is_fast_user` is `false` for every user, so every
scheduling call uses the normal (production) delay.  (Non-ASCII values can
instead parse to an id or raise at import, per the counterexample.) -/
theorem C10_misconfigured_fast_id (modeRaw raw : List Char) (u normal fast : Nat)
    (_hascii : ∀ c ∈ raw, c.toNat < 128)
    (hmode : MODE ⟨modeRaw, raw⟩ ≠ testStr) (hraw : str_isdigit raw = false) :
    FAST_USER_ID_init raw = Except.ok none ∧
    FAST_USER_ID ⟨modeRaw, raw⟩ = none ∧
    is_fast_user ⟨modeRaw, raw⟩ u = false ∧
    resolve_delay ⟨modeRaw, raw⟩ u normal fast = normal := by
  have h0 : FAST_USER_ID_init raw = Except.ok none := by
    unfold FAST_USER_ID_init
    simp [hraw]
  have h1 : FAST_USER_ID ⟨modeRaw, raw⟩ = none := by
    unfold FAST_USER_ID
    rw [h0]
  have h2 : is_fast_user ⟨modeRaw, raw⟩ u = false := by
    unfold is_fast_user
    simp [hmode, h1]
  refine ⟨h0, h1, h2, ?_⟩
  unfold resolve_delay
  rw [h2]
  rfl

/-- Witness for C10: `FAST_USER_ID="-5"` with `MODE=prod` disables
fast-tracking for user 42. -/
theorem C10_misconfigured_fast_id_witness :
    FAST_USER_ID_init ['-', '5'] = Except.ok none ∧
    FAST_USER_ID ⟨['p', 'r', 'o', 'd'], ['-', '5']⟩ = none ∧
    is_fast_user ⟨['p', 'r', 'o', 'd'], ['-', '5']⟩ 42 = false ∧
    resolve_delay ⟨['p', 'r', 'o', 'd'], ['-', '5']⟩ 42 3600 5 = 3600 :=
  C10_misconfigured_fast_id ['p', 'r', 'o', 'd'] ['-', '5'] 42 3600 5
    (by decide) (by decide) (by decide)

/-! ### Scheduling, delivery marking, purge and cancel -/

/-- C4: `schedule_message` enqueues the new action with
`send_at = now + resolve_delay(user_id, normal, fast)`; in particular a
fast-mode user scheduled with normal delay 3600 and fast delay 5 gets a row
due 5 seconds from now, not 3600. -/
theorem C4_schedule_due_time (cfg : Config) (st : Store) (u : Nat) (k : String)
    (p : Option String) (normal fast now : Nat) :
    ({ id := st.nextId, user_id := u, send_at := now + resolve_delay cfg u normal fast,
       kind := k, payload := p, delivered := false } : ScheduledAction) ∈
      (schedule_message cfg now st u normal k p fast).rows ∧
    (is_fast_user cfg u = true →
      now + resolve_delay cfg u 3600 5 = now + 5 ∧ resolve_delay cfg u 3600 5 ≠ 3600) := by
  constructor
  · unfold schedule_message resolve_delay
    exact List.mem_append_right _ (List.mem_singleton.mpr rfl)
  · intro hf
    unfold resolve_delay
    rw [hf]
    exact ⟨rfl, by decide⟩

/-- Witness for C4: in global test mode, scheduling user 7 with normal delay
3600 and fast delay 5 at time 100 stores a row due at `100 + 5`. -/
theorem C4_schedule_due_time_witness :
    ({ id := 1, user_id := 7,
       send_at := 100 + resolve_delay ⟨['t', 'e', 's', 't'], []⟩ 7 3600 5,
       kind := "A", payload := none, delivered := false } : ScheduledAction) ∈
      (schedule_message ⟨['t', 'e', 's', 't'], []⟩ 100 emptyStore 7 3600 "A" none 5).rows ∧
    100 + resolve_delay ⟨['t', 'e', 's', 't'], []⟩ 7 3600 5 = 100 + 5 :=
  ⟨(C4_schedule_due_time ⟨['t', 'e', 's', 't'], []⟩ emptyStore 7 "A" none 3600 5 100).1,
   ((C4_schedule_due_time ⟨['t', 'e', 's', 't'], []⟩ emptyStore 7 "A" none 3600 5 100).2
      (by decide)).1⟩

/-- A row of the marked store whose id was marked is delivered. -/
theorem mark_row_delivered {st : Store} {i : Nat} {b : ScheduledAction}
    (hb : b ∈ (mark_message_delivered st i).rows) (hid : b.id = i) :
    b.delivered = true := by
  unfold mark_message_delivered at hb
  simp only [List.mem_map] at hb
  obtain ⟨x, _, hgx⟩ := hb
  by_cases hxi : (x.id == i) = true
  · rw [if_pos hxi] at hgx
    rw [← hgx]
  · rw [if_neg hxi] at hgx
    rw [← hgx] at hid
    exact absurd (beq_iff_eq.mpr hid) hxi

/-- C7: `mark_message_delivered` is idempotent — a second call on the same id
leaves the store exactly as after the first — and the delivered flag only
transitions from `false` to `true`: delivered rows persist unchanged and every
undelivered row of the updated store was already present undelivered. -/
theorem C7_mark_delivered_idempotent (st : Store) (i : Nat) :
    mark_message_delivered (mark_message_delivered st i) i = mark_message_delivered st i ∧
    (∀ a ∈ st.rows, a.delivered = true → a ∈ (mark_message_delivered st i).rows) ∧
    (∀ a ∈ (mark_message_delivered st i).rows, a.delivered = false → a ∈ st.rows) := by
  refine ⟨?_, ?_, ?_⟩
  · unfold mark_message_delivered
    simp only [List.map_map]
    congr 1
    apply List.map_congr_left
    intro a _
    by_cases ha : (a.id == i) = true
    · simp [Function.comp, ha]
    · simp [Function.comp, ha]
  · intro a ha hd
    have hfix : (if a.id == i then { a with delivered := true } else a) = a := by
      by_cases hid : (a.id == i) = true
      · rw [if_pos hid]
        cases a
        simp_all
      · rw [if_neg hid]
    unfold mark_message_delivered
    simp only [List.mem_map]
    exact ⟨a, ha, hfix⟩
  · intro a ha hd
    unfold mark_message_delivered at ha
    simp only [List.mem_map] at ha
    obtain ⟨b, hb, hgb⟩ := ha
    by_cases hid : (b.id == i) = true
    · rw [if_pos hid] at hgb
      rw [← hgb] at hd
      simp at hd
    · rw [if_neg hid] at hgb
      rwa [← hgb]

/-- Witness for C7 at a one-row store whose row is already delivered. -/
theorem C7_mark_delivered_idempotent_witness :
    mark_message_delivered
        (mark_message_delivered ⟨[⟨1, 10, 5, "A", none, true⟩], 2⟩ 1) 1 =
      mark_message_delivered ⟨[⟨1, 10, 5, "A", none, true⟩], 2⟩ 1 ∧
    (⟨1, 10, 5, "A", none, true⟩ : ScheduledAction) ∈
      (mark_message_delivered ⟨[⟨1, 10, 5, "A", none, true⟩], 2⟩ 1).rows :=
  ⟨(C7_mark_delivered_idempotent ⟨[⟨1, 10, 5, "A", none, true⟩], 2⟩ 1).1,
   (C7_mark_delivered_idempotent ⟨[⟨1, 10, 5, "A", none, true⟩], 2⟩ 1).2.1
     ⟨1, 10, 5, "A", none, true⟩ (by decide) rfl⟩

/-- C8: `purge_user` removes every scheduled action of the purged user
(delivered or not), so the due-actions query never returns a row for that
user afterwards, while the actions of every other user are untouched. -/
theorem C8_purge_user_frame (st : Store) (u : Nat) (now limit : Nat) :
    (∀ a ∈ (purge_user st u).rows, a.user_id ≠ u) ∧
    (∀ a ∈ due_actions (purge_user st u) now limit, a.user_id ≠ u) ∧
    (∀ a ∈ st.rows, a.user_id ≠ u → a ∈ (purge_user st u).rows) ∧
    (∀ a ∈ (purge_user st u).rows, a ∈ st.rows) := by
  refine ⟨?_, ?_, ?_, ?_⟩
  · intro a ha
    have h := (List.mem_filter.mp ha).2
    simpa using h
  · intro a ha
    have h := (mem_due_actions ha).1
    have h2 := (List.mem_filter.mp h).2
    simpa using h2
  · intro a ha hu
    exact List.mem_filter.mpr ⟨ha, by simpa using hu⟩
  · intro a ha
    exact (List.mem_filter.mp ha).1

/-- Witness for C8: purging user 10 removes their delivered and undelivered
rows and keeps user 11's row. -/
theorem C8_purge_user_frame_witness :
    (⟨2, 11, 6, "A", none, false⟩ : ScheduledAction) ∈
      (purge_user ⟨[⟨1, 10, 5, "B", none, true⟩, ⟨2, 11, 6, "A", none, false⟩], 3⟩ 10).rows :=
  (C8_purge_user_frame ⟨[⟨1, 10, 5, "B", none, true⟩, ⟨2, 11, 6, "A", none, false⟩], 3⟩
      10 0 0).2.2.1 ⟨2, 11, 6, "A", none, false⟩ (by decide) (by decide)

/-- C6: `cancel` leaves no undelivered row of its `(user_id, kind)` pair — in
particular immediately after a `schedule_message` of that pair — the
due-actions query never returns such an action afterwards, and `cancel` is a
no-op when no undelivered row of the pair exists. -/
theorem C6_cancel_pending (cfg : Config) (st : Store) (u : Nat) (k : String)
    (p : Option String) (normal fast now now2 limit : Nat) :
    undelivered_count (cancel st u k) u k = 0 ∧
    (∀ a ∈ due_actions
        (cancel (schedule_message cfg now st u normal k p fast) u k) now2 limit,
      ¬(a.user_id = u ∧ a.kind = k)) ∧
    (undelivered_count st u k = 0 → cancel st u k = st) := by
  refine ⟨countP_filter_not _ _, ?_, ?_⟩
  · intro a ha hak
    obtain ⟨hmem, hdeliv, _⟩ := mem_due_actions ha
    have h2 := (List.mem_filter.mp hmem).2
    simp only [matchesUndelivered, Bool.not_eq_eq_eq_not, Bool.not_true,
      Bool.and_eq_false_imp] at h2
    simp [matchesUndelivered, hak.1, hak.2, hdeliv] at h2
  · intro h0
    have hall := List.countP_eq_zero.mp h0
    have : st.rows.filter (fun a => !matchesUndelivered u k a) = st.rows := by
      rw [List.filter_eq_self]
      intro a ha
      have := hall a ha
      simpa using this
    unfold cancel
    rw [this]

/-- Witness for C6: cancel after a schedule of `(7, "A")` empties the pair,
and cancel on the empty store is a no-op. -/
theorem C6_cancel_pending_witness :
    undelivered_count (cancel (schedule_message ⟨['p'], []⟩ 100 emptyStore 7 30 "A" none 3) 7 "A")
        7 "A" = 0 ∧
    cancel emptyStore 7 "A" = emptyStore :=
  ⟨(C6_cancel_pending ⟨['p'], []⟩ (schedule_message ⟨['p'], []⟩ 100 emptyStore 7 30 "A" none 3)
      7 "A" none 30 3 100 100 50).1,
   (C6_cancel_pending ⟨['p'], []⟩ emptyStore 7 "A" none 30 3 100 100 50).2.2 (by decide)⟩

/-! ### Handler failure during a poll batch -/

/-- A store with two due undelivered actions, kinds "B" then "A". -/
def exStore : Store :=
  { rows := [⟨1, 10, 5, "B", none, false⟩, ⟨2, 11, 6, "A", none, false⟩],
    nextId := 3 }

/-- A funnel handler that raises exactly on kind "B". -/
def exRaises : Handler := fun _ k _ => k == "B"

/-- A store with three due undelivered actions, kinds "A", "B", "C" in due
order; with `exRaises` the middle one fails. -/
def exStore2 : Store :=
  { rows := [⟨1, 10, 5, "A", none, false⟩, ⟨2, 11, 6, "B", none, false⟩,
             ⟨3, 12, 7, "C", none, false⟩],
    nextId := 4 }

/-- Running the batch `for` loop when the handlers of the prefix `pre` all
succeed and the handler of `a` raises: each prefix action and then `a` are
processed and marked delivered (the `finally` block), the exception breaks the
loop — the worker-level `except` absorbs it — and the poll ends after exactly
the invocations of `pre` and `a`, the store changed only by their delivered
marks. -/
theorem runBatch_prefix_raises (raises : Handler) (a : ScheduledAction)
    (rest : List ScheduledAction)
    (hraise : raises a.user_id a.kind a.payload = true) :
    ∀ (pre : List ScheduledAction) (st : Store),
      (∀ x ∈ pre, raises x.user_id x.kind x.payload = false) →
      runBatch raises (pre ++ a :: rest) st =
        ((pre ++ [a]).foldl (fun s x => mark_message_delivered s x.id) st,
         (pre ++ [a]).map (fun x => ⟨x.id, x.user_id, x.kind, x.payload⟩)) := by
  intro pre
  induction pre with
  | nil =>
    intro st _
    simp only [List.nil_append]
    unfold runBatch process_scheduled_message
    simp [hraise]
  | cons x pre ih =>
    intro st hpre
    have hx : raises x.user_id x.kind x.payload = false :=
      hpre x (List.mem_cons_self x pre)
    have hih := ih (mark_message_delivered st x.id)
      (fun y hy => hpre y (List.mem_cons_of_mem x hy))
    simp only [List.cons_append]
    unfold runBatch process_scheduled_message
    simp only [hx, Bool.false_eq_true, if_false, hih, List.foldl_cons, List.map_cons]

/-- A row whose id is marked by none of the folded delivery marks survives
unchanged. -/
theorem mem_foldl_mark {b : ScheduledAction} :
    ∀ (l : List ScheduledAction) (st : Store), b ∈ st.rows →
      (∀ x ∈ l, b.id ≠ x.id) →
      b ∈ (l.foldl (fun s x => mark_message_delivered s x.id) st).rows := by
  intro l
  induction l with
  | nil =>
    intro st hb _
    simpa using hb
  | cons x l ih =>
    intro st hb hid
    simp only [List.foldl_cons]
    refine ih (mark_message_delivered st x.id) ?_ (fun y hy => hid y (List.mem_cons_of_mem x hy))
    unfold mark_message_delivered
    simp only [List.mem_map]
    refine ⟨b, hb, ?_⟩
    rw [if_neg]
    simpa using hid x (List.mem_cons_self x l)

/-- C2 counterexample: both actions of `exStore` are due in the same poll
batch and the handler raises only on the first, yet the second action is never
invoked in that poll and stays undelivered — the dispatch loop does not catch
the error per-action and does not continue with the rest of the batch. -/
theorem C2_counterexample_batch_aborted :
    due_actions exStore 100 BATCH_LIMIT =
      [⟨1, 10, 5, "B", none, false⟩, ⟨2, 11, 6, "A", none, false⟩] ∧
    exRaises 10 "B" none = true ∧
    (⟨2, 11, "A", none⟩ : Call) ∉ (pollOnce exRaises exStore 100).2 ∧
    (⟨2, 11, 6, "A", none, false⟩ : ScheduledAction) ∈ (pollOnce exRaises exStore 100).1.rows := by
  decide

/-- C2 (amended): if the handler of a due action — at any position of the
poll batch — raises, that action is still marked delivered exactly once by the
`finally` block, and the error is caught at the poll level rather than
per-action: the worker survives and the poll returns normally, the batch
actions before the failing one having been processed and marked delivered
normally, while the poll performs no handler invocation after the failing one
and changes no row beyond the delivered marks of the processed prefix and the
failed action; the rest of the batch is left for a later poll. -/
theorem C2_handler_failure_marks_delivered (raises : Handler) (st : Store) (now : Nat)
    (pre : List ScheduledAction) (a : ScheduledAction) (rest : List ScheduledAction)
    (hdue : due_actions st now BATCH_LIMIT = pre ++ a :: rest)
    (hpre : ∀ x ∈ pre, raises x.user_id x.kind x.payload = false)
    (hraise : raises a.user_id a.kind a.payload = true) :
    pollOnce raises st now =
      ((pre ++ [a]).foldl (fun s x => mark_message_delivered s x.id) st,
       (pre ++ [a]).map (fun x => ⟨x.id, x.user_id, x.kind, x.payload⟩)) ∧
    (∀ b ∈ (pollOnce raises st now).1.rows, b.id = a.id → b.delivered = true) := by
  have h : pollOnce raises st now =
      ((pre ++ [a]).foldl (fun s x => mark_message_delivered s x.id) st,
       (pre ++ [a]).map (fun x => ⟨x.id, x.user_id, x.kind, x.payload⟩)) := by
    unfold pollOnce
    rw [hdue]
    exact runBatch_prefix_raises raises a rest hraise pre st hpre
  refine ⟨h, ?_⟩
  intro b hb hid
  rw [h] at hb
  have hb2 : b ∈ ((pre ++ [a]).foldl
      (fun s x => mark_message_delivered s x.id) st).rows := hb
  rw [List.foldl_append] at hb2
  simp only [List.foldl_cons, List.foldl_nil] at hb2
  exact mark_row_delivered hb2 hid

/-- Witness for the amended C2 on the three-action store: kind "A" succeeds,
kind "B" raises mid-batch, kind "C" is left untouched. -/
theorem C2_handler_failure_marks_delivered_witness :
    pollOnce exRaises exStore2 100 =
      (([⟨1, 10, 5, "A", none, false⟩, ⟨2, 11, 6, "B", none, false⟩] :
          List ScheduledAction).foldl (fun s x => mark_message_delivered s x.id) exStore2,
       ([⟨1, 10, 5, "A", none, false⟩, ⟨2, 11, 6, "B", none, false⟩] :
          List ScheduledAction).map (fun x => ⟨x.id, x.user_id, x.kind, x.payload⟩)) ∧
    (∀ b ∈ (pollOnce exRaises exStore2 100).1.rows, b.id = 2 → b.delivered = true) :=
  C2_handler_failure_marks_delivered exRaises exStore2 100
    [⟨1, 10, 5, "A", none, false⟩] ⟨2, 11, 6, "B", none, false⟩
    [⟨3, 12, 7, "C", none, false⟩] (by decide) (by decide) (by decide)

/-- C9: when a handler raises on an action of a poll batch, the remaining due
actions of that batch receive no handler invocation in that poll, keep their
undelivered rows unchanged, and (the due rows fitting the batch limit) are
returned again by the due-actions query of any later poll — delayed, not lost
and not spuriously marked delivered. -/
theorem C9_remaining_batch_deferred (raises : Handler) (st : Store) (now now2 : Nat)
    (pre : List ScheduledAction) (a b : ScheduledAction) (rest : List ScheduledAction)
    (hdue : due_actions st now BATCH_LIMIT = pre ++ a :: rest)
    (hpre : ∀ x ∈ pre, raises x.user_id x.kind x.payload = false)
    (hraise : raises a.user_id a.kind a.payload = true)
    (hb : b ∈ rest) (hid : ∀ x ∈ pre ++ [a], b.id ≠ x.id) (hnow : now ≤ now2)
    (hlen : ((pollOnce raises st now).1.rows.filter (isDue now2)).length ≤ BATCH_LIMIT) :
    (⟨b.id, b.user_id, b.kind, b.payload⟩ : Call) ∉ (pollOnce raises st now).2 ∧
    b ∈ (pollOnce raises st now).1.rows ∧ b.delivered = false ∧
    b ∈ due_actions (pollOnce raises st now).1 now2 BATCH_LIMIT := by
  have hp : pollOnce raises st now =
      ((pre ++ [a]).foldl (fun s x => mark_message_delivered s x.id) st,
       (pre ++ [a]).map (fun x => ⟨x.id, x.user_id, x.kind, x.payload⟩)) := by
    unfold pollOnce
    rw [hdue]
    exact runBatch_prefix_raises raises a rest hraise pre st hpre
  have hbdue : b ∈ due_actions st now BATCH_LIMIT := by
    rw [hdue]
    exact List.mem_append_right pre (List.mem_cons_of_mem a hb)
  obtain ⟨hbrows, hbdeliv, hbsend⟩ := mem_due_actions hbdue
  have hbrows2 : b ∈ (pollOnce raises st now).1.rows := by
    rw [hp]
    exact mem_foldl_mark (pre ++ [a]) st hbrows hid
  refine ⟨?_, hbrows2, hbdeliv,
    mem_due_actions_of_le hlen hbrows2 hbdeliv (le_trans hbsend hnow)⟩
  rw [hp]
  intro hc
  have hc2 : (⟨b.id, b.user_id, b.kind, b.payload⟩ : Call) ∈
      (pre ++ [a]).map (fun x => ⟨x.id, x.user_id, x.kind, x.payload⟩) := hc
  simp only [List.mem_map] at hc2
  obtain ⟨x, hx, hxc⟩ := hc2
  exact hid x hx (congrArg Call.task_id hxc.symm)

/-- Witness for C9 on the three-action store: kind "B" raises mid-batch, and
the third action is not invoked, stays undelivered, and is due again at the
next poll. -/
theorem C9_remaining_batch_deferred_witness :
    (⟨3, 12, "C", none⟩ : Call) ∉ (pollOnce exRaises exStore2 100).2 ∧
    (⟨3, 12, 7, "C", none, false⟩ : ScheduledAction) ∈ (pollOnce exRaises exStore2 100).1.rows ∧
    (false : Bool) = false ∧
    (⟨3, 12, 7, "C", none, false⟩ : ScheduledAction) ∈
      due_actions (pollOnce exRaises exStore2 100).1 110 BATCH_LIMIT :=
  C9_remaining_batch_deferred exRaises exStore2 100 110
    [⟨1, 10, 5, "A", none, false⟩] ⟨2, 11, 6, "B", none, false⟩ ⟨3, 12, 7, "C", none, false⟩
    [⟨3, 12, 7, "C", none, false⟩]
    (by decide) (by decide) (by decide) (by decide) (by decide) (by decide) (by decide)

end CalmwayBot
